import Mathlib

/-!
Verification of the resilient paginated-crawl orchestrator in
`morningstar_scraper.py` (class `MorningstarScraper`).

The browser-automation capability (Selenium) is an external collaborator:
each place the code queries the rendered DOM or waits for an element is
modelled by an explicit environment value describing what that query
returned (an element's text, a timeout, a raised navigation error).  The
Python functions themselves are embedded as total Lean functions over
those environments, following the source control flow statement by
statement.
-/

namespace Morningstar

/-! ## Detail Extractor: `MorningstarScraper.get_fund_isin`

One *attempt* of `get_fund_isin` (one iteration of `for attempt in
range(retries)`) navigates to the fund page and then runs extraction
strategies in order: the primary wait on the stable element id, then four
XPath fallback selectors.  Each strategy's DOM wait either times out
(`none`) or yields the element's raw text (`some s`); the code takes
`text.strip()` and accepts it only if non-empty. -/

/-- ASCII whitespace as Python's `str.strip()` removes it (space, tab,
newline, carriage return, vertical tab, form feed). -/
def pyIsSpace (c : Char) : Bool :=
  c = ' ' || c = '\t' || c = '\n' || c = '\r' || c = '\x0b' || c = '\x0c'

/-- Python's `str.strip()`: drop whitespace from both ends. -/
def pyStrip (s : String) : String :=
  String.mk (((s.data.dropWhile pyIsSpace).reverse.dropWhile pyIsSpace).reverse)

/-- Result of one extraction strategy as the code uses it:
`isin = element.text.strip(); if isin: return isin`.  A `none` input is a
wait that timed out (caught by the bare `except` around the strategy). -/
def stratText : Option String → Option String
  | none => none
  | some s => if pyStrip s = "" then none else some (pyStrip s)

/-- The fallback `for selector in selectors` loop: first fallback strategy
whose stripped text is non-empty, else `none`. -/
def firstStrat : List (Option String) → Option String
  | [] => none
  | r :: rs =>
    match stratText r with
    | some v => some v
    | none => firstStrat rs

/-- One whole attempt's strategy cascade (lines 124-152): the primary
id-based wait first; only if it yields no non-empty stripped text, the
fallback selectors in order. -/
def attemptExtract (primary : Option String) (fallbacks : List (Option String)) :
    Option String :=
  match stratText primary with
  | some v => some v
  | none => firstStrat fallbacks

/-- What the environment (the driver and the page) did during one attempt:
either `driver.get` raised (timeout / network error caught by the outer
`except Exception`), or the page rendered and each strategy's wait produced
the given raw text or timed out. -/
inductive AttemptEnv where
  | navFail : AttemptEnv
  | rendered (primary : Option String) (fallbacks : List (Option String)) : AttemptEnv
deriving DecidableEq

/-- The two kinds of `random_sleep()` calls inside `get_fund_isin`: the
post-navigation politeness pause (line 122) and the backoff pause between
attempts on the exception path (line 162).  Both are uniform in [1,2]
seconds (`random_sleep` defaults). -/
inductive SleepKind where
  | postNav : SleepKind
  | backoff : SleepKind
deriving DecidableEq

/-- Whether one attempt succeeds (navigation worked and some strategy gave
non-empty stripped text). -/
def attemptSucceeds : AttemptEnv → Bool
  | .navFail => false
  | .rendered p fbs => (attemptExtract p fbs).isSome

/-- `MorningstarScraper.get_fund_isin` (lines 117-162), over the list of
attempt environments for its `retries` loop iterations (the list has one
entry per iteration, so "last attempt" = empty tail, matching
`attempt == retries - 1`).  Returns the result together with the sequence
of `random_sleep` calls performed.  Control flow, per the source:
navigation failure on the last attempt returns `None`; earlier, it sleeps
(backoff) and retries.  A rendered page always incurs the post-navigation
sleep; a successful strategy returns immediately; all strategies empty on
the last attempt returns `None`, earlier it retries with *no* extra pause.
The function never raises: every exception inside the loop body is caught
by the `except Exception` arm. -/
def get_fund_isin : List AttemptEnv → Option String × List SleepKind
  | [] => (none, [])
  | AttemptEnv.navFail :: rest =>
    match rest with
    | [] => (none, [])
    | r :: rs =>
      let out := get_fund_isin (r :: rs)
      (out.1, SleepKind.backoff :: out.2)
  | AttemptEnv.rendered p fbs :: rest =>
    match attemptExtract p fbs with
    | some v => (some v, [SleepKind.postNav])
    | none =>
      match rest with
      | [] => (none, [SleepKind.postNav])
      | r :: rs =>
        let out := get_fund_isin (r :: rs)
        (out.1, SleepKind.postNav :: out.2)

lemma firstStrat_eq_head_filterMap (l : List (Option String)) :
    firstStrat l = (l.filterMap stratText).head? := by
  induction l with
  | nil => rfl
  | cons r rs ih =>
    cases h : stratText r with
    | none => simp [firstStrat, h, List.filterMap_cons, ih]
    | some v => simp [firstStrat, h, List.filterMap_cons]

/-- C3: within one extraction attempt the strategies run in fixed priority
order — the primary id-based strategy first, the fallback selectors only
afterwards — and the attempt's value is the trimmed text of the first
strategy yielding non-empty trimmed text (the head of the filtered cascade
`primary :: fallbacks`); if every strategy fails the attempt yields
`none`. -/
theorem c3_attempt_strategy_order (primary : Option String)
    (fallbacks : List (Option String)) :
    attemptExtract primary fallbacks =
      ((primary :: fallbacks).filterMap stratText).head? := by
  cases h : stratText primary with
  | none => simp [attemptExtract, h, List.filterMap_cons, firstStrat_eq_head_filterMap]
  | some v => simp [attemptExtract, h, List.filterMap_cons]

lemma get_fund_isin_none_of_all_fail (attempts : List AttemptEnv)
    (h : ∀ e ∈ attempts, attemptSucceeds e = false) :
    (get_fund_isin attempts).1 = none := by
  induction attempts with
  | nil => rfl
  | cons e rest ih =>
    have he : attemptSucceeds e = false := h e (List.mem_cons_self e rest)
    have hrest : ∀ e ∈ rest, attemptSucceeds e = false :=
      fun x hx => h x (List.mem_cons_of_mem e hx)
    cases e with
    | navFail =>
      cases rest with
      | nil => rfl
      | cons r rs => simpa [get_fund_isin] using ih hrest
    | rendered p fbs =>
      have hp : attemptExtract p fbs = none := by
        simpa [attemptSucceeds, Option.isSome_iff_exists] using he
      cases rest with
      | nil => simp [get_fund_isin, hp]
      | cons r rs => simpa [get_fund_isin, hp] using ih hrest

/-- C2: when every attempt across the whole retry budget fails (navigation
error or all strategies empty), `get_fund_isin` returns `none` — it never
raises, and navigation failures are consumed as ordinary failed
attempts. -/
theorem c2_retry_exhaustion_yields_none (attempts : List AttemptEnv)
    (h : ∀ e ∈ attempts, attemptSucceeds e = false) :
    (get_fund_isin attempts).1 = none :=
  get_fund_isin_none_of_all_fail attempts h

/-- Witness for C2 at a concrete input: three attempts, a navigation
failure then two fully-empty strategy cascades, give `none`. -/
theorem c2_retry_exhaustion_yields_none_witness :
    (∀ e ∈ [AttemptEnv.navFail, AttemptEnv.rendered none [none, some "  "],
        AttemptEnv.rendered (some "") []], attemptSucceeds e = false) ∧
    (get_fund_isin [AttemptEnv.navFail, AttemptEnv.rendered none [none, some "  "],
        AttemptEnv.rendered (some "") []]).1 = none :=
  ⟨by decide, c2_retry_exhaustion_yields_none _ (by decide)⟩

/-- C4: an item whose navigation times out on the first two attempts and
whose third attempt extracts a value records exactly that third-attempt
value, and exactly 2 backoff pauses (the uniform-[1,2] sleeps between
attempts) occurred during the retry loop. -/
theorem c4_two_timeouts_then_success (p : Option String)
    (fbs : List (Option String)) (v : String)
    (h : attemptExtract p fbs = some v) :
    (get_fund_isin
        [AttemptEnv.navFail, AttemptEnv.navFail, AttemptEnv.rendered p fbs]).1
      = some v ∧
    (get_fund_isin
        [AttemptEnv.navFail, AttemptEnv.navFail, AttemptEnv.rendered p fbs]).2.count
        SleepKind.backoff = 2 := by
  constructor
  · simp [get_fund_isin, h]
  · simp [get_fund_isin, h]

/-- Witness for C4 at a concrete input: the primary strategy on the third
attempt yields "INF123K01EC2". -/
theorem c4_two_timeouts_then_success_witness :
    attemptExtract (some "INF123K01EC2") [] = some "INF123K01EC2" ∧
    ((get_fund_isin [AttemptEnv.navFail, AttemptEnv.navFail,
        AttemptEnv.rendered (some "INF123K01EC2") []]).1 = some "INF123K01EC2" ∧
     (get_fund_isin [AttemptEnv.navFail, AttemptEnv.navFail,
        AttemptEnv.rendered (some "INF123K01EC2") []]).2.count SleepKind.backoff = 2) :=
  ⟨by decide, c4_two_timeouts_then_success (some "INF123K01EC2") [] "INF123K01EC2" (by decide)⟩

/-! ## `MorningstarScraper.get_total_pages` (lines 63-78)

The environment either fails (the wait, element lookups or `int(...)`
parses raise — the `except` arm returns 1) or yields the parsed pair
`(total_results, results_per_page)`.  A per-page count of 0 makes the
Python `//` raise `ZeroDivisionError`, also caught by the same arm. -/

/-- `get_total_pages`: `(int(total_results) + results_per_page - 1) //
results_per_page`, and 1 on any failure (including division by zero). -/
def get_total_pages : Option (Nat × Nat) → Nat
  | none => 1
  | some (t, p) => if p = 0 then 1 else (t + p - 1) / p

/-- C10: with a positive per-page count `p`, `get_total_pages` returns
exactly `(t + p - 1) / p`, which is the ceiling of `t / p` (the least `n`
with `t ≤ p * n`); on any failure to read the values it returns 1 instead
of raising. -/
theorem c10_total_pages_ceiling (t p : Nat) (hp : 0 < p) :
    get_total_pages (some (t, p)) = (t + p - 1) / p ∧
    (∀ n : Nat, get_total_pages (some (t, p)) ≤ n ↔ t ≤ p * n) ∧
    get_total_pages none = 1 := by
  refine ⟨by simp [get_total_pages, Nat.pos_iff_ne_zero.mp hp], fun n => ?_, rfl⟩
  have h1 : get_total_pages (some (t, p)) = (t + p - 1) / p := by
    simp [get_total_pages, Nat.pos_iff_ne_zero.mp hp]
  rw [h1, Nat.div_le_iff_le_mul_add_pred hp]
  omega

/-- Witness for C10: 7 results at 3 per page give 3 pages, the ceiling of
7/3. -/
theorem c10_total_pages_ceiling_witness :
    0 < 3 ∧ get_total_pages (some (7, 3)) = (7 + 3 - 1) / 3 ∧
      (∀ n : Nat, get_total_pages (some (7, 3)) ≤ n ↔ 7 ≤ 3 * n) ∧
      get_total_pages none = 1 :=
  ⟨by decide, c10_total_pages_ceiling 7 3 (by decide)⟩

/-! ## Data model: listing items and enriched items -/

/-- One row of the listing table as `get_fund_links` builds it (lines
103-108): insertion-ordered keys name, link, rating, category. -/
structure Fund where
  name : String
  link : String
  rating : String
  category : String
deriving DecidableEq

/-- A fund after `process_fund` set `fund["isin"]` (line 167): the listing
fields plus the identifier, which is validly absent. -/
structure EnrichedFund where
  fund : Fund
  isin : Option String
deriving DecidableEq

/-! ## Checkpoint writer: `MorningstarScraper.save_progress` (lines 424-431)

`open('morningstar_funds.json', 'w')` truncates the file, so each
successful write replaces the whole previous contents with
`json.dump(self.funds_data, f, indent=2)`.  The JSON rendering is a thin
I/O wrapper around the data; it is embedded as a concrete deterministic
serializer for the record shape the scraper produces (string fields and a
nullable identifier), escaping quotes and backslashes. -/

/-- JSON string-body escaping for the characters that need it in the
scraped fields. -/
def jsonEscape (s : String) : String :=
  s.foldl (fun acc c =>
    acc ++ (if c = '"' then "\\\"" else if c = '\\' then "\\\\"
            else String.singleton c)) ""

/-- A JSON string literal. -/
def jsonStr (s : String) : String := "\"" ++ jsonEscape s ++ "\""

/-- A nullable JSON string: Python serializes `None` as `null`. -/
def jsonOpt : Option String → String
  | none => "null"
  | some s => jsonStr s

/-- One fund dict under `json.dump(..., indent=2)`, keys in insertion
order: name, link, rating, category, isin. -/
def fundJson (e : EnrichedFund) : String :=
  "  \x7b\n    \"name\": " ++ jsonStr e.fund.name ++
  ",\n    \"link\": " ++ jsonStr e.fund.link ++
  ",\n    \"rating\": " ++ jsonStr e.fund.rating ++
  ",\n    \"category\": " ++ jsonStr e.fund.category ++
  ",\n    \"isin\": " ++ jsonOpt e.isin ++ "\n  \x7d"

/-- The serialized ResultSet: `json.dump(list, f, indent=2)`. -/
def serializeFunds : List EnrichedFund → String
  | [] => "[]"
  | e :: es => "[\n" ++ String.intercalate ",\n" ((e :: es).map fundJson) ++ "\n]"

/-- `save_progress`: on success the file holds exactly the serialized
data (mode 'w' truncates first); on a caught write failure the run
continues and the file keeps its previous contents. -/
def save_progress (data : List EnrichedFund) (writeOk : Bool)
    (fileContents : String) : String :=
  if writeOk then serializeFunds data else fileContents

/-- C8: checkpointing is idempotent and wholesale — writing the same
ResultSet twice produces byte-identical contents, and a successful write
replaces the file's entire previous contents (the result never depends on
what was in the file before, so nothing is appended). -/
theorem c8_checkpoint_idempotent_wholesale (data : List EnrichedFund)
    (fs fs' : String) :
    save_progress data true (save_progress data true fs) =
      save_progress data true fs ∧
    save_progress data true fs = save_progress data true fs' ∧
    save_progress data true fs = serializeFunds data :=
  ⟨rfl, rfl, rfl⟩

/-! ## Secondary pagination driver:
`MorningstarScraper.click_until_page_visible_and_select` (lines 249-305)

Each of the (at most 100) loop iterations observes a pager environment:
either an interaction raised (the pager wait, a click, or reading an
attribute — caught by the `except` arm, which dumps HTML and returns
`False`), or the pager rendered with its anchor and span elements.  After
clicking (either a page-number link or the Next link) the code waits for
the pager again; that wait failing also raises into the `except` arm. -/

/-- An anchor in the `.r_pager` bar: its text, `class` attribute and
enabled state. -/
structure PagerLink where
  text : String
  cls : String
  enabled : Bool
deriving DecidableEq

/-- What one loop iteration of the driver observed. -/
inductive PagerEnv where
  | fail : PagerEnv
  | pager (links : List PagerLink) (spans : List String) (clickWaitOk : Bool) : PagerEnv
deriving DecidableEq

/-- Python's `'disabled' in cls` substring test. -/
def containsSub (s pat : String) : Bool := (s.splitOn pat).length != 1

/-- One iteration of the `for _ in range(100)` loop body: `some b` means
`return b`, `none` means fall through to the next iteration.  Order of
checks as in the source: page-number anchor (click it, then the post-click
pager wait decides success), page-number span (already on that page),
otherwise the Next anchor by text — missing, disabled-classed or
not-enabled Next returns `False`; clicking Next whose post-click wait
fails raises into the `except` arm, returning `False`. -/
def clickStep (target : Nat) : PagerEnv → Option Bool
  | .fail => some false
  | .pager links spans waitOk =>
    if links.any (fun l => pyStrip l.text == toString target) then
      some waitOk
    else if spans.any (fun s => pyStrip s == toString target) then
      some true
    else
      match links.find? (fun l => (pyStrip l.text).toLower == "next") with
      | none => some false
      | some nb =>
        if containsSub nb.cls "disabled" || !nb.enabled then some false
        else if waitOk then none else some false

/-- The bounded loop over at most the given iteration environments;
falling off the end of `range(100)` returns `False` (line 305). -/
def clickUntilAux (target : Nat) : List PagerEnv → Bool
  | [] => false
  | e :: rest =>
    match clickStep target e with
    | some b => b
    | none => clickUntilAux target rest

/-- `click_until_page_visible_and_select`: the loop runs over exactly the
first 100 iteration environments. -/
def click_until_page_visible_and_select (env : Nat → PagerEnv) (target : Nat) :
    Bool :=
  clickUntilAux target ((List.range 100).map env)

/-- Whether an iteration's rendered pager shows the target page number at
all (as anchor or span text). -/
def showsTarget (target : Nat) : PagerEnv → Bool
  | .fail => false
  | .pager links spans _ =>
    links.any (fun l => pyStrip l.text == toString target) ||
      spans.any (fun s => pyStrip s == toString target)

lemma clickUntilAux_false_of_not_shown (target : Nat) :
    ∀ l : List PagerEnv, (∀ e ∈ l, showsTarget target e = false) →
      clickUntilAux target l = false := by
  intro l
  induction l with
  | nil => intro _; rfl
  | cons e rest ih =>
    intro h
    have he := h e (List.mem_cons_self e rest)
    have hrest : ∀ x ∈ rest, showsTarget target x = false :=
      fun x hx => h x (List.mem_cons_of_mem e hx)
    cases e with
    | fail => simp [clickUntilAux, clickStep]
    | pager links spans waitOk =>
      have hla : links.any (fun l => pyStrip l.text == toString target) = false := by
        have := he
        simp only [showsTarget, Bool.or_eq_false_iff] at this
        exact this.1
      have hsa : spans.any (fun s => pyStrip s == toString target) = false := by
        have := he
        simp only [showsTarget, Bool.or_eq_false_iff] at this
        exact this.2
      simp only [clickUntilAux, clickStep, hla, hsa]
      cases hf : links.find? (fun l => (pyStrip l.text).toLower == "next") with
      | none => simp
      | some nb =>
        by_cases hd : (containsSub nb.cls "disabled" || !nb.enabled) = true
        · simp [hd]
        · simp only [Bool.not_eq_true] at hd
          cases waitOk with
          | false => simp [hd]
          | true => simpa [hd] using ih hrest

/-- C9: the secondary page-number pagination driver is bounded by 100
iterations — its outcome depends only on the first 100 iteration
environments — it always terminates (it is a total function), and it
returns `false` (the Exhausted outcome) whenever the target page number is
never visible in the pager within that bound. -/
theorem c9_bounded_driver (env env' : Nat → PagerEnv) (target : Nat) :
    ((∀ i, i < 100 → env i = env' i) →
      click_until_page_visible_and_select env target =
        click_until_page_visible_and_select env' target) ∧
    ((∀ i, i < 100 → showsTarget target (env i) = false) →
      click_until_page_visible_and_select env target = false) := by
  constructor
  · intro h
    unfold click_until_page_visible_and_select
    have : (List.range 100).map env = (List.range 100).map env' := by
      apply List.map_congr_left
      intro i hi
      exact h i (List.mem_range.mp hi)
    rw [this]
  · intro h
    unfold click_until_page_visible_and_select
    apply clickUntilAux_false_of_not_shown
    intro e hee
    rcases List.mem_map.mp hee with ⟨i, hi, rfl⟩
    exact h i (List.mem_range.mp hi)

/-- Witness for C9: an environment whose pager never renders agrees with
itself below 100 and never shows page 5, so the driver yields `false`. -/
theorem c9_bounded_driver_witness :
    ((∀ i, i < 100 → (fun _ : Nat => PagerEnv.fail) i = (fun _ : Nat => PagerEnv.fail) i) ∧
      click_until_page_visible_and_select (fun _ => PagerEnv.fail) 5 =
        click_until_page_visible_and_select (fun _ => PagerEnv.fail) 5) ∧
    ((∀ i, i < 100 → showsTarget 5 ((fun _ : Nat => PagerEnv.fail) i) = false) ∧
      click_until_page_visible_and_select (fun _ => PagerEnv.fail) 5 = false) :=
  ⟨⟨fun _ _ => rfl,
      (c9_bounded_driver (fun _ => PagerEnv.fail) (fun _ => PagerEnv.fail) 5).1
        (fun _ _ => rfl)⟩,
    ⟨fun _ _ => rfl,
      (c9_bounded_driver (fun _ => PagerEnv.fail) (fun _ => PagerEnv.fail) 5).2
        (fun _ _ => rfl)⟩⟩

/-! ## Pagination availability and advance:
`is_next_button_available` (lines 307-317) and `click_next_button`
(lines 319-332) -/

/-- What the 5-second wait for `div.r_pager a[title='Next']` observed:
the element never appeared (`NoSuchElementException`/`TimeoutException`,
caught), or it is present with the given displayed/enabled state. -/
inductive NextBtnEnv where
  | absent : NextBtnEnv
  | present (displayed enabled : Bool) : NextBtnEnv
deriving DecidableEq

/-- `is_next_button_available`: present and displayed and enabled. -/
def is_next_button_available : NextBtnEnv → Bool
  | .absent => false
  | .present d e => d && e

/-- What `click_next_button` observed: locating the Next anchor raised
(caught), or the click went through and the 20-second wait for the first
fund's name to differ from its previous value either succeeded or timed
out (`nameChanged`). -/
inductive ClickNextEnv where
  | findFail : ClickNextEnv
  | clicked (nameChanged : Bool) : ClickNextEnv
deriving DecidableEq

/-- `click_next_button`: true only when the click happened and the
content-identity signal changed within the bounded wait; a timeout or any
raised error returns false. -/
def click_next_button : ClickNextEnv → Bool
  | .findFail => false
  | .clicked changed => changed

/-! ## Crawl Orchestrator: `MorningstarScraper.scrape` (lines 334-422)

Each iteration of the `while True` loop observes one `PageStep`: whether
the 20-second wait for the listing table raised (fatal, propagates to the
top-level `except`), the item list `get_fund_links` returned (that
function catches its own errors and returns `[]`), the per-fund attempt
environments driving `get_fund_isin`, and the pagination observations.
The worker pool appends each page's enriched items to `funds_data` under
`self.lock`; the lock serializes the appends, and the model fixes the
submission order as the linearization (the claims proved below are
counting/membership facts, unchanged by the interleaving order). -/

/-- The environment of one orchestrator loop iteration. -/
structure PageStep where
  renderOk : Bool
  funds : List Fund
  isinEnvs : Fund → List AttemptEnv
  nextEnv : NextBtnEnv
  clickEnv : ClickNextEnv

/-- `process_fund` (lines 164-171): fetch the identifier with
`get_fund_isin` and record the item with `fund["isin"] = isin`; the
append to `funds_data` is done by the caller model under the lock. -/
def process_fund (isinEnvs : Fund → List AttemptEnv) (f : Fund) : EnrichedFund :=
  ⟨f, (get_fund_isin (isinEnvs f)).1⟩

/-- Observable events of one crawl run, in order. -/
inductive Event where
  | renderFailed : Event
  | fatalFirstEmpty : Event
  | emptyLater : Event
  | pageProcessed (funds : List Fund) : Event
  | checkpointed : Event
  | nextChecked (avail : Bool) : Event
  | nextClicked (ok : Bool) : Event
deriving DecidableEq

/-- The `while True` loop of `scrape`, with 0-based iteration counter `i`
(the source's `page` is `i + 1`) and the accumulated `funds_data` in
`acc`.  `fuel` bounds the recursion depth of the model only; every claim
below holds for every fuel.  Branches, per the source: the listing wait
raising is fatal (caught only at the top level, after the loop); an empty
item list on a later page breaks (end of crawl); an empty item list on
the first page with an empty ResultSet breaks fatally *before* any
checkpoint; otherwise the page's items are enriched and appended, the
checkpoint is written, and the Next button is queried — clicking only
when it is available, and breaking when the click fails to verify
navigation. -/
def scrapeGo (env : Nat → PageStep) :
    Nat → Nat → List EnrichedFund → List EnrichedFund × List Event
  | 0, _, acc => (acc, [])
  | fuel + 1, i, acc =>
    if (env i).renderOk = false then (acc, [Event.renderFailed])
    else if (env i).funds = [] ∧ 0 < i then (acc, [Event.emptyLater])
    else if (env i).funds = [] ∧ acc = [] then (acc, [Event.fatalFirstEmpty])
    else
      if is_next_button_available (env i).nextEnv then
        if click_next_button (env i).clickEnv then
          ((scrapeGo env fuel (i + 1)
              (acc ++ (env i).funds.map (process_fund (env i).isinEnvs))).1,
            Event.pageProcessed (env i).funds :: Event.checkpointed ::
              Event.nextChecked true :: Event.nextClicked true ::
              (scrapeGo env fuel (i + 1)
                (acc ++ (env i).funds.map (process_fund (env i).isinEnvs))).2)
        else
          (acc ++ (env i).funds.map (process_fund (env i).isinEnvs),
            [Event.pageProcessed (env i).funds, Event.checkpointed,
              Event.nextChecked true, Event.nextClicked false])
      else
        (acc ++ (env i).funds.map (process_fund (env i).isinEnvs),
          [Event.pageProcessed (env i).funds, Event.checkpointed,
            Event.nextChecked false])

/-- A whole crawl run: empty ResultSet, first page. -/
def scrape (env : Nat → PageStep) (fuel : Nat) : List EnrichedFund × List Event :=
  scrapeGo env fuel 0 []

/-- The item list a `pageProcessed` event carries. -/
def pageOf : Event → Option (List Fund)
  | .pageProcessed fs => some fs
  | _ => none

/-- All items the Orchestrator observed on processed pages, in order. -/
def observedFunds (evs : List Event) : List Fund :=
  (evs.filterMap pageOf).flatten

/-- The possible shapes of one run's event trace. -/
inductive ScrapeTrace : List Event → Prop where
  | nil : ScrapeTrace []
  | renderFailed : ScrapeTrace [Event.renderFailed]
  | emptyLater : ScrapeTrace [Event.emptyLater]
  | fatalFirstEmpty : ScrapeTrace [Event.fatalFirstEmpty]
  | stopNoNext (fs : List Fund) :
      ScrapeTrace [Event.pageProcessed fs, Event.checkpointed,
        Event.nextChecked false]
  | stopClickFail (fs : List Fund) :
      ScrapeTrace [Event.pageProcessed fs, Event.checkpointed,
        Event.nextChecked true, Event.nextClicked false]
  | next (fs : List Fund) (t : List Event) (h : ScrapeTrace t) :
      ScrapeTrace (Event.pageProcessed fs :: Event.checkpointed ::
        Event.nextChecked true :: Event.nextClicked true :: t)

lemma scrapeGo_trace (env : Nat → PageStep) (fuel : Nat) :
    ∀ i acc, ScrapeTrace (scrapeGo env fuel i acc).2 := by
  induction fuel with
  | zero => intro i acc; exact ScrapeTrace.nil
  | succ fuel ih =>
    intro i acc
    simp only [scrapeGo]
    split
    · exact ScrapeTrace.renderFailed
    · split
      · exact ScrapeTrace.emptyLater
      · split
        · exact ScrapeTrace.fatalFirstEmpty
        · split
          · split
            · exact ScrapeTrace.next _ _ (ih _ _)
            · exact ScrapeTrace.stopClickFail _
          · exact ScrapeTrace.stopNoNext _

lemma trace_click_preceded {t : List Event} (H : ScrapeTrace t) :
    ∀ pre b post, t = pre ++ Event.nextClicked b :: post →
      ∃ q, pre = q ++ [Event.nextChecked true] := by
  induction H with
  | nil =>
    intro pre b post h
    rcases pre with _ | ⟨a, pre⟩ <;> simp_all
  | renderFailed =>
    intro pre b post h
    rcases pre with _ | ⟨a, _ | ⟨a2, pre⟩⟩ <;> simp_all
  | emptyLater =>
    intro pre b post h
    rcases pre with _ | ⟨a, _ | ⟨a2, pre⟩⟩ <;> simp_all
  | fatalFirstEmpty =>
    intro pre b post h
    rcases pre with _ | ⟨a, _ | ⟨a2, pre⟩⟩ <;> simp_all
  | stopNoNext fs =>
    intro pre b post h
    rcases pre with _ | ⟨a, _ | ⟨a2, _ | ⟨a3, _ | ⟨a4, pre⟩⟩⟩⟩ <;> simp_all
  | stopClickFail fs =>
    intro pre b post h
    rcases pre with _ | ⟨a, _ | ⟨a2, _ | ⟨a3, _ | ⟨a4, pre⟩⟩⟩⟩
    · simp at h
    · simp at h
    · simp at h
    · simp only [List.cons_append, List.nil_append, List.cons.injEq] at h
      obtain ⟨h1, h2, h3, -⟩ := h
      subst h1; subst h2; subst h3
      exact ⟨[Event.pageProcessed fs, Event.checkpointed], rfl⟩
    · simp at h
  | next fs t ht ih =>
    intro pre b post h
    rcases pre with _ | ⟨a, _ | ⟨a2, _ | ⟨a3, _ | ⟨a4, pre⟩⟩⟩⟩
    · simp at h
    · simp at h
    · simp at h
    · simp only [List.cons_append, List.nil_append, List.cons.injEq] at h
      obtain ⟨h1, h2, h3, -⟩ := h
      subst h1; subst h2; subst h3
      exact ⟨[Event.pageProcessed fs, Event.checkpointed], rfl⟩
    · simp only [List.cons_append, List.cons.injEq] at h
      obtain ⟨q, hq⟩ := ih pre b post h.2.2.2.2
      refine ⟨a :: a2 :: a3 :: a4 :: q, ?_⟩
      simp [hq]

lemma trace_checked_false_last {t : List Event} (H : ScrapeTrace t) :
    ∀ pre post, t = pre ++ Event.nextChecked false :: post → post = [] := by
  induction H with
  | nil =>
    intro pre post h
    rcases pre with _ | ⟨a, pre⟩ <;> simp_all
  | renderFailed =>
    intro pre post h
    rcases pre with _ | ⟨a, _ | ⟨a2, pre⟩⟩ <;> simp_all
  | emptyLater =>
    intro pre post h
    rcases pre with _ | ⟨a, _ | ⟨a2, pre⟩⟩ <;> simp_all
  | fatalFirstEmpty =>
    intro pre post h
    rcases pre with _ | ⟨a, _ | ⟨a2, pre⟩⟩ <;> simp_all
  | stopNoNext fs =>
    intro pre post h
    rcases pre with _ | ⟨a, _ | ⟨a2, _ | ⟨a3, _ | ⟨a4, pre⟩⟩⟩⟩ <;> simp_all
  | stopClickFail fs =>
    intro pre post h
    rcases pre with _ | ⟨a, _ | ⟨a2, _ | ⟨a3, _ | ⟨a4, pre⟩⟩⟩⟩ <;> simp_all
  | next fs t ht ih =>
    intro pre post h
    rcases pre with _ | ⟨a, _ | ⟨a2, _ | ⟨a3, _ | ⟨a4, pre⟩⟩⟩⟩
    · simp at h
    · simp at h
    · simp at h
    · simp at h
    · simp only [List.cons_append, List.cons.injEq] at h
      exact ih pre post h.2.2.2.2

lemma trace_clicked_false_last {t : List Event} (H : ScrapeTrace t) :
    ∀ pre post, t = pre ++ Event.nextClicked false :: post → post = [] := by
  induction H with
  | nil =>
    intro pre post h
    rcases pre with _ | ⟨a, pre⟩ <;> simp_all
  | renderFailed =>
    intro pre post h
    rcases pre with _ | ⟨a, _ | ⟨a2, pre⟩⟩ <;> simp_all
  | emptyLater =>
    intro pre post h
    rcases pre with _ | ⟨a, _ | ⟨a2, pre⟩⟩ <;> simp_all
  | fatalFirstEmpty =>
    intro pre post h
    rcases pre with _ | ⟨a, _ | ⟨a2, pre⟩⟩ <;> simp_all
  | stopNoNext fs =>
    intro pre post h
    rcases pre with _ | ⟨a, _ | ⟨a2, _ | ⟨a3, _ | ⟨a4, pre⟩⟩⟩⟩ <;> simp_all
  | stopClickFail fs =>
    intro pre post h
    rcases pre with _ | ⟨a, _ | ⟨a2, _ | ⟨a3, _ | ⟨a4, pre⟩⟩⟩⟩ <;> simp_all
  | next fs t ht ih =>
    intro pre post h
    rcases pre with _ | ⟨a, _ | ⟨a2, _ | ⟨a3, _ | ⟨a4, pre⟩⟩⟩⟩
    · simp at h
    · simp at h
    · simp at h
    · simp at h
    · simp only [List.cons_append, List.cons.injEq] at h
      exact ih pre post h.2.2.2.2

lemma scrapeGo_map_fund (env : Nat → PageStep) (fuel : Nat) :
    ∀ i acc, (scrapeGo env fuel i acc).1.map EnrichedFund.fund =
      acc.map EnrichedFund.fund ++ observedFunds (scrapeGo env fuel i acc).2 := by
  induction fuel with
  | zero => intro i acc; simp [scrapeGo, observedFunds]
  | succ fuel ih =>
    intro i acc
    simp only [scrapeGo]
    split
    · simp [observedFunds, pageOf]
    · split
      · simp [observedFunds, pageOf]
      · split
        · simp [observedFunds, pageOf]
        · split
          · split
            · rw [ih]
              simp [observedFunds, pageOf, List.filterMap_cons, List.map_append,
                List.map_map, process_fund, Function.comp_def, List.map_id']
            · simp [observedFunds, pageOf, List.filterMap_cons, List.map_append,
                List.map_map, process_fund, Function.comp_def, List.map_id']
          · simp [observedFunds, pageOf, List.filterMap_cons, List.map_append,
              List.map_map, process_fund, Function.comp_def, List.map_id']

/-- C1: no item the Orchestrator observed on a page is ever dropped — the
final ResultSet is, item for item and in multiplicity, exactly the
concatenation of the observed pages (each observed item appears exactly
once, with its identifier a real value or absent by type), so the
ResultSet size equals the sum of per-page item counts; and a per-item
unit of work whose every extraction attempt raises is caught inside
`get_fund_isin` and still records the item with identifier absent. -/
theorem c1_resultset_complete (env : Nat → PageStep) (fuel : Nat) :
    (scrape env fuel).1.map EnrichedFund.fund = observedFunds (scrape env fuel).2 ∧
    (scrape env fuel).1.length =
      (((scrape env fuel).2.filterMap pageOf).map List.length).sum ∧
    ∀ (ie : Fund → List AttemptEnv) (f : Fund),
      (∀ e ∈ ie f, e = AttemptEnv.navFail) → process_fund ie f = ⟨f, none⟩ := by
  refine ⟨?_, ?_, ?_⟩
  · simpa using scrapeGo_map_fund env fuel 0 []
  · have h := congrArg List.length (scrapeGo_map_fund env fuel 0 [])
    simpa [scrape, observedFunds, List.length_flatten] using h
  · intro ie f hf
    have hs : ∀ e ∈ ie f, attemptSucceeds e = false := by
      intro e he
      rw [hf e he]
      rfl
    simp [process_fund, get_fund_isin_none_of_all_fail (ie f) hs]

/-- A minimal listing row for concrete runs. -/
def fundW : Fund := ⟨"A", "L", "G", "E"⟩

/-- Concrete run: one page whose single item's every attempt raises. -/
def c1Env : Nat → PageStep := fun _ =>
  { renderOk := true, funds := [fundW], isinEnvs := fun _ => [AttemptEnv.navFail],
    nextEnv := NextBtnEnv.absent, clickEnv := ClickNextEnv.findFail }

/-- Witness for C1 at a concrete input. -/
theorem c1_resultset_complete_witness :
    ((scrape c1Env 1).1.map EnrichedFund.fund = observedFunds (scrape c1Env 1).2) ∧
    ((∀ e ∈ [AttemptEnv.navFail], e = AttemptEnv.navFail) ∧
      process_fund (fun _ => [AttemptEnv.navFail]) fundW = ⟨fundW, none⟩) :=
  ⟨(c1_resultset_complete c1Env 1).1,
    ⟨by decide, (c1_resultset_complete c1Env 1).2.2 (fun _ => [AttemptEnv.navFail])
      fundW (by decide)⟩⟩

/-- C5: in every run, any advance click in the trace is immediately
preceded by an availability check that returned true (so no advance is
attempted without first querying the Next affordance); once an
availability check returns false nothing further happens in the run (the
loop terminates, and no advance mechanism is invoked again); and the
availability check itself is true exactly for a present, displayed and
enabled Next control. -/
theorem c5_exhausted_stops_advance (env : Nat → PageStep) (fuel : Nat) :
    (∀ pre b post, (scrape env fuel).2 = pre ++ Event.nextClicked b :: post →
      ∃ q, pre = q ++ [Event.nextChecked true]) ∧
    (∀ pre post, (scrape env fuel).2 = pre ++ Event.nextChecked false :: post →
      post = []) ∧
    is_next_button_available NextBtnEnv.absent = false ∧
    (∀ d e, is_next_button_available (NextBtnEnv.present d e) = (d && e)) := by
  refine ⟨?_, ?_, rfl, fun d e => rfl⟩
  · exact fun pre b post h =>
      trace_click_preceded (scrapeGo_trace env fuel 0 []) pre b post h
  · exact fun pre post h =>
      trace_checked_false_last (scrapeGo_trace env fuel 0 []) pre post h

/-- Concrete run: one full page, a successful advance, then an empty
second page. -/
def c5EnvA : Nat → PageStep := fun i =>
  if i = 0 then
    { renderOk := true, funds := [fundW], isinEnvs := fun _ => [],
      nextEnv := NextBtnEnv.present true true, clickEnv := ClickNextEnv.clicked true }
  else
    { renderOk := true, funds := [], isinEnvs := fun _ => [],
      nextEnv := NextBtnEnv.absent, clickEnv := ClickNextEnv.findFail }

/-- Concrete run: one page with the Next control absent. -/
def c5EnvB : Nat → PageStep := fun _ =>
  { renderOk := true, funds := [fundW], isinEnvs := fun _ => [],
    nextEnv := NextBtnEnv.absent, clickEnv := ClickNextEnv.findFail }

/-- Witness for C5 at concrete inputs: a run containing a click, and a run
containing a failed availability check. -/
theorem c5_exhausted_stops_advance_witness :
    ((scrape c5EnvA 2).2 = [Event.pageProcessed [fundW], Event.checkpointed,
        Event.nextChecked true] ++ Event.nextClicked true :: [Event.emptyLater] ∧
      ∃ q, [Event.pageProcessed [fundW], Event.checkpointed, Event.nextChecked true] =
        q ++ [Event.nextChecked true]) ∧
    ((scrape c5EnvB 1).2 = [Event.pageProcessed [fundW], Event.checkpointed] ++
        Event.nextChecked false :: ([] : List Event) ∧ ([] : List Event) = []) :=
  ⟨⟨by decide, (c5_exhausted_stops_advance c5EnvA 2).1 _ true [Event.emptyLater]
      (by decide)⟩,
    ⟨by decide, (c5_exhausted_stops_advance c5EnvB 1).2.1
      [Event.pageProcessed [fundW], Event.checkpointed] ([] : List Event)
      (by decide)⟩⟩

/-- C6: `click_next_button` succeeds exactly when the click happened and
the first item's name changed within its bounded wait — a timeout without
the signal changing (and any raised error) returns failure — and in every
run a failed advance is final: nothing follows a failed click in the
trace, i.e. the Orchestrator terminates the page loop (failure is not
retried). -/
theorem c6_advance_failure_ends_crawl (env : Nat → PageStep) (fuel : Nat) :
    (∀ e, click_next_button e = true ↔ e = ClickNextEnv.clicked true) ∧
    (∀ pre post, (scrape env fuel).2 = pre ++ Event.nextClicked false :: post →
      post = []) := by
  constructor
  · intro e
    cases e with
    | findFail => simp [click_next_button]
    | clicked c => cases c <;> simp [click_next_button]
  · exact fun pre post h =>
      trace_clicked_false_last (scrapeGo_trace env fuel 0 []) pre post h

/-- Concrete run: one page whose advance click times out unverified. -/
def c6Env : Nat → PageStep := fun _ =>
  { renderOk := true, funds := [fundW], isinEnvs := fun _ => [],
    nextEnv := NextBtnEnv.present true true, clickEnv := ClickNextEnv.clicked false }

/-- Witness for C6 at a concrete input. -/
theorem c6_advance_failure_ends_crawl_witness :
    (click_next_button (ClickNextEnv.clicked false) = true ↔
      ClickNextEnv.clicked false = ClickNextEnv.clicked true) ∧
    ((scrape c6Env 1).2 = [Event.pageProcessed [fundW], Event.checkpointed,
        Event.nextChecked true] ++ Event.nextClicked false :: ([] : List Event) ∧
      ([] : List Event) = []) :=
  ⟨(c6_advance_failure_ends_crawl c6Env 1).1 (ClickNextEnv.clicked false),
    ⟨by decide, (c6_advance_failure_ends_crawl c6Env 1).2
      [Event.pageProcessed [fundW], Event.checkpointed, Event.nextChecked true]
      ([] : List Event) (by decide)⟩⟩

/-- C7: a first page whose listing fails to render, or whose item list is
empty while the ResultSet is still empty, terminates the run fatally with
zero checkpoint writes and an empty ResultSet; an empty item list on any
later page ends the run as a normal end-of-crawl, returning the
accumulated results of the earlier pages unchanged (so their checkpoints
stay intact). -/
theorem c7_empty_listing_policy (env : Nat → PageStep) (fuel : Nat) :
    (((env 0).renderOk = false ∨ (env 0).funds = []) →
      ((scrape env (fuel + 1)).2 = [Event.renderFailed] ∨
        (scrape env (fuel + 1)).2 = [Event.fatalFirstEmpty]) ∧
      (scrape env (fuel + 1)).2.count Event.checkpointed = 0 ∧
      (scrape env (fuel + 1)).1 = []) ∧
    (∀ i acc, 0 < i → (env i).renderOk = true → (env i).funds = [] →
      scrapeGo env (fuel + 1) i acc = (acc, [Event.emptyLater])) := by
  constructor
  · intro h
    by_cases hr : (env 0).renderOk = false
    · have ht : (scrape env (fuel + 1)).2 = [Event.renderFailed] ∧
          (scrape env (fuel + 1)).1 = [] := by
        constructor <;> simp [scrape, scrapeGo, hr]
      refine ⟨Or.inl ht.1, ?_, ht.2⟩
      rw [ht.1]
      rfl
    · have hf : (env 0).funds = [] := h.resolve_left hr
      have ht : (scrape env (fuel + 1)).2 = [Event.fatalFirstEmpty] ∧
          (scrape env (fuel + 1)).1 = [] := by
        constructor <;> simp [scrape, scrapeGo, hr, hf]
      refine ⟨Or.inr ht.1, ?_, ht.2⟩
      rw [ht.1]
      rfl
  · intro i acc hi hrok hf
    simp [scrapeGo, hrok, hf, hi]

/-- Concrete run: the first page renders but its item list is empty. -/
def c7Env : Nat → PageStep := fun _ =>
  { renderOk := true, funds := [], isinEnvs := fun _ => [],
    nextEnv := NextBtnEnv.absent, clickEnv := ClickNextEnv.findFail }

/-- Witness for C7 at a concrete input: fatal empty first page, and a
normal end-of-crawl on an empty later page. -/
theorem c7_empty_listing_policy_witness :
    ((c7Env 0).renderOk = false ∨ (c7Env 0).funds = []) ∧
    (((scrape c7Env 1).2 = [Event.renderFailed] ∨
        (scrape c7Env 1).2 = [Event.fatalFirstEmpty]) ∧
      (scrape c7Env 1).2.count Event.checkpointed = 0 ∧ (scrape c7Env 1).1 = []) ∧
    (0 < 1 ∧ scrapeGo c7Env 1 1 [] = ([], [Event.emptyLater])) :=
  ⟨Or.inr rfl, (c7_empty_listing_policy c7Env 0).1 (Or.inr rfl),
    ⟨by decide, (c7_empty_listing_policy c7Env 0).2 1 [] (by decide) rfl rfl⟩⟩

end Morningstar
